import Mathlib

/-!
# Verification of the lastvigil-front render-state reconciliation engine

A shallow embedding of the client's core render-state code:

* `Effect` / `Effect.update`          — src/gameplay/Effect.ts
* `Enemy` / `Enemy.updateFromServer`
  / `Enemy.updateAnimation`           — src/gameplay/Enemy.ts
* `getEnemyConfig` / `ENEMY_TYPES`    — src/gameplay/EnemyTypes.ts
* `Camera`                            — src/core/Camera.ts
* `GazeCursor`                        — src/gameplay/GazeCursor.ts
* `Game.updateEnemies` / `Game.updateEffects`
  / `Game.updateAnimations`
  / `Game.updateGameState`            — src/core/Game.ts
* `checkAndScrollCamera`              — src/main.ts

JavaScript numbers are embedded as `ℚ` (all constants appearing in the
program are rational and no overflow/rounding is exercised by the
properties below); frame indices and frame counts as `ℕ`; JS `Map`s keyed
by string as association lists in insertion order, matching JS `Map`
iteration semantics.
-/

namespace LastVigil

/-- `HTMLImageElement`, reduced to the one observable field the core
reads (`image.complete`). -/
structure HtmlImage where
  complete : Bool
deriving Repr, DecidableEq

/-! ## VFX metadata (src/gameplay/VFXTypes.ts) -/

/-- `VFXMetadata` from VFXTypes.ts. -/
structure VFXMetadata where
  path : String
  frameWidth : ℚ
  frameHeight : ℚ
  frameCount : ℕ
  frameDuration : ℚ
  loop : Option Bool := none
  scale : Option ℚ := none
  yOffset : Option ℚ := none
deriving Repr, DecidableEq

/-! ## Effect (src/gameplay/Effect.ts) -/

/-- The `Effect` class: spritesheet animation state plus position. -/
structure Effect where
  x : ℚ
  y : ℚ
  image : HtmlImage
  frameWidth : ℚ
  frameHeight : ℚ
  frameCount : ℕ
  frameDuration : ℚ
  loop : Bool
  scale : ℚ
  currentFrame : ℕ
  elapsedTime : ℚ
  isFinished : Bool
deriving Repr, DecidableEq

/-- The `Effect` constructor. -/
def Effect.new (x y : ℚ) (image : HtmlImage) (metadata : VFXMetadata) : Effect :=
  { x := x
    y := y
    image := image
    frameWidth := metadata.frameWidth
    frameHeight := metadata.frameHeight
    frameCount := metadata.frameCount
    frameDuration := metadata.frameDuration
    loop := metadata.loop.getD false
    scale := metadata.scale.getD 1
    currentFrame := 0
    elapsedTime := 0
    isFinished := false }

/-- `Effect.update(deltaTime)`: accumulate elapsed time and, if one frame
duration has elapsed, advance a single frame (loop to 0 or clamp at the
final frame and finish). -/
def Effect.update (e : Effect) (deltaTime : ℚ) : Effect :=
  if e.isFinished then e
  else
    let e1 := { e with elapsedTime := e.elapsedTime + deltaTime }
    if e1.frameDuration ≤ e1.elapsedTime then
      let e2 := { e1 with
        elapsedTime := e1.elapsedTime - e1.frameDuration
        currentFrame := e1.currentFrame + 1 }
      if e2.frameCount ≤ e2.currentFrame then
        if e2.loop then { e2 with currentFrame := 0 }
        else { e2 with currentFrame := e2.frameCount - 1, isFinished := true }
      else e2
    else e1

/-- `Effect.isComplete()`. -/
def Effect.isComplete (e : Effect) : Bool := e.isFinished

/-! ## Enemy static metadata (src/gameplay/EnemyTypes.ts) -/

/-- `SpriteAnimationConfig` from EnemyTypes.ts. -/
structure SpriteAnimationConfig where
  path : String
  frameWidth : ℚ
  frameHeight : ℚ
  frameCount : ℕ
  frameDuration : ℚ
deriving Repr, DecidableEq

/-- The `stats` block of an `EnemyTypeConfig`. -/
structure EnemyStats where
  maxHP : ℚ
  speed : ℚ
  damage : ℚ
  goldReward : ℚ
  scale : ℚ
deriving Repr, DecidableEq

/-- The `sprites` block of an `EnemyTypeConfig`. -/
structure EnemySprites where
  walk : SpriteAnimationConfig
  hurt : SpriteAnimationConfig
  death : SpriteAnimationConfig
deriving Repr, DecidableEq

/-- `EnemyTypeConfig` from EnemyTypes.ts. -/
structure EnemyTypeConfig where
  id : String
  name : String
  sprites : EnemySprites
  stats : EnemyStats
deriving Repr, DecidableEq

/-- The `AnimationState` union type of Enemy.ts. -/
inductive AnimationState
  | walk
  | hurt
  | death
deriving Repr, DecidableEq

/-- `typeConfig.sprites[animationState]` indexing. -/
def EnemySprites.get (s : EnemySprites) : AnimationState → SpriteAnimationConfig
  | .walk => s.walk
  | .hurt => s.hurt
  | .death => s.death

/-- Helper building one `EnemyTypeConfig` entry of `ENEMY_TYPES`
(every entry uses 1000×1000 frames and the same per-state frame counts
except for the walk frame count). -/
def mkEnemyType (id name dir base : String) (walkFrames : ℕ)
    (maxHP speed damage goldReward : ℚ) : EnemyTypeConfig :=
  { id := id
    name := name
    sprites :=
      { walk :=
          { path := "/assets/sprites/" ++ dir ++ "/" ++ base ++ "_walk.png"
            frameWidth := 1000, frameHeight := 1000
            frameCount := walkFrames, frameDuration := 150 }
        hurt :=
          { path := "/assets/sprites/" ++ dir ++ "/" ++ base ++ "_hurt.png"
            frameWidth := 1000, frameHeight := 1000
            frameCount := 4, frameDuration := 100 }
        death :=
          { path := "/assets/sprites/" ++ dir ++ "/" ++ base ++ "_death.png"
            frameWidth := 1000, frameHeight := 1000
            frameCount := 4, frameDuration := 200 } }
    stats :=
      { maxHP := maxHP, speed := speed, damage := damage
        goldReward := goldReward, scale := 3/5 } }

/-- The `ENEMY_TYPES` table, in object-literal order. -/
def ENEMY_TYPES : List (String × EnemyTypeConfig) :=
  [ ("slime", mkEnemyType "slime" "Slime" "Slime" "Slime" 5 50 60 5 10)
  , ("skeleton", mkEnemyType "skeleton" "Skeleton" "Skeleton" "Skeleton" 8 80 70 10 15)
  , ("orc", mkEnemyType "orc" "Orc" "Orc" "Orc" 8 120 50 15 20)
  , ("skeletonArcher",
      mkEnemyType "skeletonArcher" "Skeleton Archer" "Skeleton_Archor" "Skeleton_Archer" 8 100 80 12 25)
  , ("armoredSkeleton",
      mkEnemyType "armoredSkeleton" "Armored Skeleton" "Armored_Skeleton" "Armored_Skeleton" 8 150 55 18 30)
  , ("greatswordSkeleton",
      mkEnemyType "greatswordSkeleton" "Greatsword Skeleton" "Greatsword_Skeleton" "Greatsword_Skeleton" 8 180 45 25 35)
  , ("armoredOrc", mkEnemyType "armoredOrc" "Armored Orc" "Armored_Orc" "Armored_Orc" 8 250 40 30 50)
  , ("elitOrc", mkEnemyType "elitOrc" "Elite Orc" "Elit_Orc" "Elit_Orc" 8 300 55 35 60)
  , ("orcRider", mkEnemyType "orcRider" "Orc Rider" "Orc_rider" "Orc_rider" 8 200 90 28 55) ]

/-- `getEnemyConfig(typeId)`: `ENEMY_TYPES[typeId] || null`. -/
def getEnemyConfig (typeId : String) : Option EnemyTypeConfig :=
  (ENEMY_TYPES.lookup typeId)

/-! ## Enemy (src/gameplay/Enemy.ts) -/

/-- `EnemyStateData`: the per-enemy snapshot entry sent by the server. -/
structure EnemyStateData where
  id : String
  typeId : String
  worldX : ℚ
  worldY : ℚ
  currentHP : ℚ
  maxHP : ℚ
  animationState : AnimationState
  currentFrame : ℕ
  isDead : Bool
deriving Repr, DecidableEq

/-- The `Enemy` class: authoritative server fields plus the locally-owned
animation clock (`localCurrentFrame`, `frameTimer`,
`previousAnimationState`). -/
structure Enemy where
  id : String
  typeConfig : EnemyTypeConfig
  worldX : ℚ
  worldY : ℚ
  currentHP : ℚ
  maxHP : ℚ
  animationState : AnimationState
  currentFrame : ℕ
  isDead : Bool
  scale : ℚ
  localCurrentFrame : ℕ
  frameTimer : ℚ
  previousAnimationState : AnimationState
deriving Repr, DecidableEq

/-- The `Enemy` constructor. -/
def Enemy.new (id : String) (typeConfig : EnemyTypeConfig) : Enemy :=
  { id := id
    typeConfig := typeConfig
    worldX := 0
    worldY := 0
    currentHP := typeConfig.stats.maxHP
    maxHP := typeConfig.stats.maxHP
    animationState := .walk
    currentFrame := 0
    isDead := false
    scale := typeConfig.stats.scale
    localCurrentFrame := 0
    frameTimer := 0
    previousAnimationState := .walk }

/-- `Enemy.updateFromServer(data)`: overwrite the authoritative fields;
reset the local animation clock only when the animation-state label
changes. -/
def Enemy.updateFromServer (e : Enemy) (data : EnemyStateData) : Enemy :=
  if e.animationState ≠ data.animationState then
    { e with
      worldX := data.worldX, worldY := data.worldY
      currentHP := data.currentHP, maxHP := data.maxHP
      previousAnimationState := e.animationState
      animationState := data.animationState
      localCurrentFrame := 0, frameTimer := 0
      isDead := data.isDead }
  else
    { e with
      worldX := data.worldX, worldY := data.worldY
      currentHP := data.currentHP, maxHP := data.maxHP
      isDead := data.isDead }

/-- `Enemy.updateAnimation(deltaTime)`: advance the local animation clock
by at most one frame; death clamps at the final frame, the other states
loop. -/
def Enemy.updateAnimation (e : Enemy) (deltaTime : ℚ) : Enemy :=
  let spriteConfig := e.typeConfig.sprites.get e.animationState
  if e.animationState = .death ∧ spriteConfig.frameCount - 1 ≤ e.localCurrentFrame then
    e
  else
    let e1 := { e with frameTimer := e.frameTimer + deltaTime }
    if spriteConfig.frameDuration ≤ e1.frameTimer then
      let e2 := { e1 with
        frameTimer := e1.frameTimer - spriteConfig.frameDuration
        localCurrentFrame := e1.localCurrentFrame + 1 }
      if e2.animationState = .death then
        if spriteConfig.frameCount ≤ e2.localCurrentFrame then
          { e2 with localCurrentFrame := spriteConfig.frameCount - 1 }
        else e2
      else
        if spriteConfig.frameCount ≤ e2.localCurrentFrame then
          { e2 with localCurrentFrame := 0 }
        else e2
    else e1

/-! ## Camera (src/core/Camera.ts) -/

/-- The `Camera` class: world-to-screen translation state. -/
structure Camera where
  offsetX : ℚ
  offsetY : ℚ
  worldWidth : ℚ
  viewportWidth : ℚ
  viewportHeight : ℚ
deriving Repr, DecidableEq

/-- `Camera.clampOffset()`: clamp `offsetX` into
`[0, max(0, worldWidth - viewportWidth)]`. -/
def Camera.clampOffset (c : Camera) : Camera :=
  let maxOffset := max 0 (c.worldWidth - c.viewportWidth)
  { c with offsetX := max 0 (min c.offsetX maxOffset) }

/-- `Camera.moveX(deltaX)`. -/
def Camera.moveX (c : Camera) (deltaX : ℚ) : Camera :=
  Camera.clampOffset { c with offsetX := c.offsetX + deltaX }

/-- `Camera.setOffsetX(offset)`. -/
def Camera.setOffsetX (c : Camera) (offset : ℚ) : Camera :=
  Camera.clampOffset { c with offsetX := offset }

/-- `Camera.updateViewportSize(width, height)`. -/
def Camera.updateViewportSize (c : Camera) (width height : ℚ) : Camera :=
  Camera.clampOffset { c with viewportWidth := width, viewportHeight := height }

/-- `Camera.centerOnWorldX(worldX)`. -/
def Camera.centerOnWorldX (c : Camera) (worldX : ℚ) : Camera :=
  Camera.clampOffset { c with offsetX := worldX - c.viewportWidth / 2 }

/-- `Camera.worldToScreen(worldX, worldY)`. -/
def Camera.worldToScreen (c : Camera) (worldX worldY : ℚ) : ℚ × ℚ :=
  (worldX - c.offsetX, worldY - c.offsetY)

/-! ## GazeCursor (src/gameplay/GazeCursor.ts) -/

/-- The `GazeCursor` class, restricted to the smoothing-relevant fields. -/
structure GazeCursor where
  radius : ℚ
  chaseSpeed : ℚ
  targetX : ℚ
  targetY : ℚ
  currentX : ℚ
  currentY : ℚ
deriving Repr, DecidableEq

/-- `GazeCursor.update()`: one exponential-smoothing step toward the
target, applied independently per axis. -/
def GazeCursor.update (c : GazeCursor) : GazeCursor :=
  { c with
    currentX := c.currentX + (c.targetX - c.currentX) * c.chaseSpeed
    currentY := c.currentY + (c.targetY - c.currentY) * c.chaseSpeed }

/-! ## AssetLoader (src/core/AssetLoader.ts), restricted to the VFX
lookup used by `Game.createEffect` -/

/-- The loader's runtime contents: the decoded VFX images keyed by name
and the VFX metadata table. -/
structure AssetLoader where
  vfxImages : List (String × HtmlImage)
  vfxMeta : List (String × VFXMetadata)
deriving Repr, DecidableEq

/-- `AssetLoader.getVFXWithMetadata(name)`: `null` unless both the image
and the metadata exist. -/
def AssetLoader.getVFXWithMetadata (al : AssetLoader) (name : String) :
    Option (HtmlImage × VFXMetadata) :=
  match al.vfxImages.lookup name, al.vfxMeta.lookup name with
  | some image, some metadata => some (image, metadata)
  | _, _ => none

/-! ## Game (src/core/Game.ts) -/

/-- One entry of the server snapshot's `effects` array
(`x` is normalized to `[0,1]`). -/
structure EffectStateData where
  id : String
  type : String
  x : ℚ
deriving Repr, DecidableEq

/-- `GameStateData`: one server snapshot. -/
structure GameStateData where
  enemies : List EnemyStateData
  effects : List EffectStateData
  playerGold : Option ℚ := none
  playerScore : Option ℚ := none
  waveNumber : Option ℚ := none
deriving Repr, DecidableEq

/-- An element of `Game.activeEffects`: the effect object together with
the id the game tags onto it (`(effect as any).id = effectState.id`). -/
structure ActiveEffect where
  id : String
  fx : Effect
deriving Repr, DecidableEq

/-- `Map.get` on a string-keyed JS `Map` represented as an association
list in insertion order. -/
def mapGet (es : List (String × Enemy)) (id : String) : Option Enemy :=
  es.lookup id

/-- `Map.set`: overwrite in place if the key exists (JS `Map` keeps the
original insertion position), otherwise append. -/
def mapSet (es : List (String × Enemy)) (id : String) (v : Enemy) :
    List (String × Enemy) :=
  if es.any (fun p => p.1 = id) then
    es.map (fun p => if p.1 = id then (id, v) else p)
  else
    es ++ [(id, v)]

/-- The body of `Game.updateEnemies`'s second loop for one snapshot
entry: update the existing shadow, or create one if its type resolves
(`continue` on unknown types). -/
def applyEnemyState (es : List (String × Enemy)) (enemyState : EnemyStateData) :
    List (String × Enemy) :=
  match mapGet es enemyState.id with
  | some enemy => mapSet es enemyState.id (enemy.updateFromServer enemyState)
  | none =>
    match getEnemyConfig enemyState.typeId with
    | none => es
    | some config =>
      mapSet es enemyState.id ((Enemy.new enemyState.id config).updateFromServer enemyState)

/-- `Game.updateEnemies(enemyStates)`: delete the shadows whose id is
absent from the snapshot, then create/update a shadow for every entry. -/
def updateEnemies (es : List (String × Enemy)) (enemyStates : List EnemyStateData) :
    List (String × Enemy) :=
  let currentEnemyIds := enemyStates.map (fun e => e.id)
  enemyStates.foldl applyEnemyState
    (es.filter (fun p => currentEnemyIds.contains p.1))

/-- `existingEffectIds`: the ids of the active effects, with falsy
(empty) ids dropped by `.filter(Boolean)`. -/
def existingEffectIds (effs : List ActiveEffect) : List String :=
  (effs.map (fun e => e.id)).filter (fun s => ¬ s = "")

/-- The body of `Game.updateEffects`'s loop for one snapshot entry:
spawn a new tagged effect at `(x * innerWidth, innerHeight * 0.6)` unless
the id is already active or the VFX type is unknown. -/
def spawnEffect (al : AssetLoader) (innerWidth innerHeight : ℚ)
    (existing : List String) (effs : List ActiveEffect)
    (effectState : EffectStateData) : List ActiveEffect :=
  if existing.contains effectState.id then effs
  else
    match al.getVFXWithMetadata effectState.type with
    | none => effs
    | some (image, metadata) =>
      effs ++ [{ id := effectState.id
                 fx := Effect.new (effectState.x * innerWidth) (innerHeight * (6/10))
                   image metadata }]

/-- `Game.updateEffects(effectStates)`: the set of already-active ids is
computed once up front, then each snapshot entry not in it is spawned. -/
def updateEffects (al : AssetLoader) (innerWidth innerHeight : ℚ)
    (effs : List ActiveEffect) (effectStates : List EffectStateData) :
    List ActiveEffect :=
  let existing := existingEffectIds effs
  effectStates.foldl (spawnEffect al innerWidth innerHeight existing) effs

/-- The `Game` class state touched by the claims. -/
structure Game where
  assetLoader : AssetLoader
  gazeCursor : GazeCursor
  enemies : List (String × Enemy)
  activeEffects : List ActiveEffect
  latestGameState : GameStateData
deriving Repr, DecidableEq

/-- `Game.updateGameState(state)`: store the snapshot, reconcile the
enemies, spawn the new effects. -/
def Game.updateGameState (innerWidth innerHeight : ℚ) (g : Game)
    (state : GameStateData) : Game :=
  { g with
    latestGameState := state
    enemies := updateEnemies g.enemies state.enemies
    activeEffects :=
      updateEffects g.assetLoader innerWidth innerHeight g.activeEffects state.effects }

/-- `Game.updateAnimations(deltaTime)`: smooth the cursor, advance every
active effect, then immediately remove the completed effects. -/
def Game.updateAnimations (g : Game) (deltaTime : ℚ) : Game :=
  { g with
    gazeCursor := g.gazeCursor.update
    activeEffects :=
      (g.activeEffects.map (fun a => { a with fx := a.fx.update deltaTime })).filter
        (fun a => ¬ a.fx.isComplete) }

/-- The effects drawn by `Game.render()`: every active effect whose image
has finished decoding (`Effect.draw` returns early otherwise). -/
def Game.drawnEffects (g : Game) : List ActiveEffect :=
  g.activeEffects.filter (fun a => a.fx.image.complete)

/-- One iteration of `Game.gameLoop`: `updateAnimations(deltaTime)` runs
first, then `render()` (which mutates no modeled state); the new state is
the updated one. -/
def Game.tick (g : Game) (deltaTime : ℚ) : Game :=
  g.updateAnimations deltaTime

/-- The effects drawn during one `gameLoop` iteration: `render()` draws
from `activeEffects` as it stands after `updateAnimations` ran. -/
def Game.tickDrawnEffects (g : Game) (deltaTime : ℚ) : List ActiveEffect :=
  (g.updateAnimations deltaTime).drawnEffects

/-! ## Gaze-driven edge scrolling (src/main.ts) -/

/-- `EDGE_HOLD_THRESHOLD = 300` (ms). -/
def EDGE_HOLD_THRESHOLD : ℚ := 300

/-- `EDGE_THRESHOLD = 0.1` (fraction of the viewport). -/
def EDGE_THRESHOLD : ℚ := 1/10

/-- `MIN_SCROLL_SPEED = 10`. -/
def MIN_SCROLL_SPEED : ℚ := 10

/-- `MAX_SCROLL_SPEED = 50`. -/
def MAX_SCROLL_SPEED : ℚ := 50

/-- The hardcoded `WORLD_WIDTH = 2148` of `checkAndScrollCamera`. -/
def SCROLL_WORLD_WIDTH : ℚ := 2148

/-- The module-level state `checkAndScrollCamera` reads and writes: the
camera singleton and the `edgeHoldStartTime` timestamp (0 = unset). -/
structure ScrollState where
  camera : Camera
  edgeHoldStartTime : ℚ
deriving Repr, DecidableEq

/-- `scrollMargin`: 10% of the viewport width. -/
def scrollMargin (c : Camera) : ℚ :=
  c.viewportWidth * EDGE_THRESHOLD

/-- `leftScrollZone`: the world-space right boundary of the left edge
zone. -/
def leftScrollZone (c : Camera) : ℚ :=
  c.offsetX + scrollMargin c

/-- `rightScrollZone`: the world-space left boundary of the right edge
zone. -/
def rightScrollZone (c : Camera) : ℚ :=
  c.offsetX + c.viewportWidth - scrollMargin c

/-- `isInLeftZone` for a pointer world x. -/
def isInLeftZone (c : Camera) (worldX : ℚ) : Prop :=
  worldX < leftScrollZone c

/-- `isInRightZone` for a pointer world x. -/
def isInRightZone (c : Camera) (worldX : ℚ) : Prop :=
  rightScrollZone c < worldX

instance (c : Camera) (worldX : ℚ) : Decidable (isInLeftZone c worldX) := by
  unfold isInLeftZone; infer_instance

instance (c : Camera) (worldX : ℚ) : Decidable (isInRightZone c worldX) := by
  unfold isInRightZone; infer_instance

/-- The dynamic scroll speed: `MIN + (MAX - MIN) * min(depth / margin, 1)`
where `depth` is the distance from the zone's inner boundary. -/
def scrollSpeedOf (distanceFromZoneEdge margin : ℚ) : ℚ :=
  MIN_SCROLL_SPEED +
    (MAX_SCROLL_SPEED - MIN_SCROLL_SPEED) * min (distanceFromZoneEdge / margin) 1

/-- `checkAndScrollCamera(worldX)` evaluated at wall-clock time `now`
(`Date.now()`): the hold timer starts on zone entry, scrolling fires only
after the dwell threshold, and leaving both zones resets the timer. -/
def checkAndScrollCamera (s : ScrollState) (now worldX : ℚ) : ScrollState :=
  let cameraOffsetX := s.camera.offsetX
  let margin := scrollMargin s.camera
  if isInLeftZone s.camera worldX ∨ isInRightZone s.camera worldX then
    let start := if s.edgeHoldStartTime = 0 then now else s.edgeHoldStartTime
    let holdDuration := now - start
    if EDGE_HOLD_THRESHOLD ≤ holdDuration then
      let maxOffset := SCROLL_WORLD_WIDTH - s.camera.viewportWidth
      let speed :=
        if isInLeftZone s.camera worldX then
          scrollSpeedOf (leftScrollZone s.camera - worldX) margin
        else
          scrollSpeedOf (worldX - rightScrollZone s.camera) margin
      if isInLeftZone s.camera worldX ∧ 0 < cameraOffsetX then
        { camera := s.camera.moveX (-speed), edgeHoldStartTime := start }
      else if isInRightZone s.camera worldX ∧ cameraOffsetX < maxOffset then
        { camera := s.camera.moveX speed, edgeHoldStartTime := start }
      else
        { s with edgeHoldStartTime := start }
    else
      { s with edgeHoldStartTime := start }
  else
    { s with edgeHoldStartTime := 0 }

/-! ## The application state of main.ts relevant to snapshot processing -/

/-- The module-level singletons of main.ts that snapshot processing can
reach: the game, the camera and the edge-scroll timer. -/
structure App where
  game : Game
  camera : Camera
  edgeHoldStartTime : ℚ
deriving Repr, DecidableEq

/-- The `response.gameState` branch of `processServerData`: the snapshot
is handed to `game.updateGameState`; the camera and scroll timer are not
read or written on this path (only the `response.gaze` branch calls
`checkAndScrollCamera`). -/
def App.processGameState (innerWidth innerHeight : ℚ) (a : App)
    (state : GameStateData) : App :=
  { a with game := a.game.updateGameState innerWidth innerHeight state }

/-! ## Derived notions and concrete instances used in the statements -/

/-- The keys of the local enemy map. -/
def enemyKeys (es : List (String × Enemy)) : List String :=
  es.map Prod.fst

/-- The clamping invariant of the camera offset. -/
def cameraInv (c : Camera) : Prop :=
  0 ≤ c.offsetX ∧ c.offsetX ≤ max 0 (c.worldWidth - c.viewportWidth)

/-- A camera with the spec's example dimensions (world 2148, viewport
1200). -/
def camera2148 : Camera :=
  { offsetX := 0, offsetY := 0, worldWidth := 2148
    viewportWidth := 1200, viewportHeight := 800 }

/-- The cursor of the spec's smoothing example: factor 0.08, target
(100, 0), display starting at (0, 0). -/
def gazeDemo : GazeCursor :=
  { radius := 55, chaseSpeed := 8/100, targetX := 100, targetY := 0
    currentX := 0, currentY := 0 }

/-- A neutral cursor for assembling concrete game states. -/
def cursor0 : GazeCursor :=
  { radius := 55, chaseSpeed := 8/100, targetX := 0, targetY := 0
    currentX := 0, currentY := 0 }

/-- A looping five-frame effect (frameCount 5, frameDuration 100 ms),
fresh. -/
def loopFx : Effect :=
  { x := 0, y := 0, image := { complete := true }
    frameWidth := 64, frameHeight := 64
    frameCount := 5, frameDuration := 100, loop := true, scale := 1
    currentFrame := 0, elapsedTime := 0, isFinished := false }

/-- A non-looping single-frame effect (frameDuration 100 ms), fresh. -/
def oneShotFx : Effect :=
  { x := 0, y := 0, image := { complete := true }
    frameWidth := 64, frameHeight := 64
    frameCount := 1, frameDuration := 100, loop := false, scale := 1
    currentFrame := 0, elapsedTime := 0, isFinished := false }

/-- Metadata of a non-looping single-frame VFX type. -/
def boomMeta : VFXMetadata :=
  { path := "/assets/vfx/boom-sheet.png", frameWidth := 64, frameHeight := 64
    frameCount := 1, frameDuration := 100
    loop := some false, scale := some 1, yOffset := none }

/-- A loader that has finished loading the single VFX type "boom". -/
def demoLoader : AssetLoader :=
  { vfxImages := [("boom", { complete := true })]
    vfxMeta := [("boom", boomMeta)] }

/-- A game with no enemies and no active effects. -/
def emptyGame : Game :=
  { assetLoader := demoLoader, gazeCursor := cursor0
    enemies := [], activeEffects := []
    latestGameState := { enemies := [], effects := [] } }

/-- A snapshot whose only content is the effect id "fx_1" of type
"boom". -/
def fxSnap : GameStateData :=
  { enemies := [], effects := [{ id := "fx_1", type := "boom", x := 1/2 }] }

/-- A game whose only active effect is the tagged single-frame effect
"fx_1". -/
def oneShotGame : Game :=
  { assetLoader := demoLoader, gazeCursor := cursor0
    enemies := [], activeEffects := [{ id := "fx_1", fx := oneShotFx }]
    latestGameState := { enemies := [], effects := [] } }

/-- The `ENEMY_TYPES` entry for "slime". -/
def slimeConfig : EnemyTypeConfig :=
  mkEnemyType "slime" "Slime" "Slime" "Slime" 5 50 60 5 10

/-- A freshly constructed shadow enemy with id "A". -/
def enemyA : Enemy :=
  Enemy.new "A" slimeConfig

/-- A snapshot entry for id "A" whose `typeId` resolves to no static
metadata. -/
def bogusEntry : EnemyStateData :=
  { id := "A", typeId := "bogus", worldX := 100, worldY := 200
    currentHP := 10, maxHP := 50, animationState := .walk
    currentFrame := 0, isDead := false }

/-- A well-formed slime snapshot entry (id "e1"). -/
def slimeEntry : EnemyStateData :=
  { id := "e1", typeId := "slime", worldX := 1074, worldY := 540
    currentHP := 40, maxHP := 50, animationState := .walk
    currentFrame := 0, isDead := false }

/-- A shadow enemy in the walk state at local frame 5. -/
def walkEnemy : Enemy :=
  { enemyA with
    id := "e1"
    animationState := .walk
    localCurrentFrame := 5
    frameTimer := 40 }

/-- A snapshot entry requesting the hurt state for "e1". -/
def hurtData : EnemyStateData :=
  { id := "e1", typeId := "slime", worldX := 1074, worldY := 540
    currentHP := 30, maxHP := 50, animationState := .hurt
    currentFrame := 0, isDead := false }

/-- A camera scrolled to offset 500 over the 2148-wide world. -/
def cam500 : Camera :=
  { offsetX := 500, offsetY := 0, worldWidth := 2148
    viewportWidth := 1200, viewportHeight := 800 }

/-- Scroll state: camera at offset 500, hold timer started at t=1000. -/
def sHold : ScrollState :=
  { camera := cam500, edgeHoldStartTime := 1000 }

/-- The local entity set {A, B, C} of the spec's deletion example. -/
def esABC : List (String × Enemy) :=
  [("A", Enemy.new "A" slimeConfig), ("B", Enemy.new "B" slimeConfig),
   ("C", Enemy.new "C" slimeConfig)]

/-- A snapshot containing only entities A and C (known type "slime"). -/
def snapAC : List EnemyStateData :=
  [ { id := "A", typeId := "slime", worldX := 100, worldY := 200
      currentHP := 40, maxHP := 50, animationState := .walk
      currentFrame := 0, isDead := false }
  , { id := "C", typeId := "slime", worldX := 300, worldY := 200
      currentHP := 25, maxHP := 50, animationState := .walk
      currentFrame := 0, isDead := false } ]

/-! ## Supporting lemmas -/

/-- `clampOffset` establishes the camera invariant and changes nothing
but the offset. -/
lemma clampOffset_inv (c : Camera) : cameraInv c.clampOffset := by
  unfold Camera.clampOffset cameraInv
  refine ⟨le_max_left _ _, ?_⟩
  have h0 : (0 : ℚ) ≤ max 0 (c.worldWidth - c.viewportWidth) := le_max_left _ _
  exact max_le h0 (min_le_right _ _)

/-! ## C7 -/

/-- C7: every mutating camera operation (`moveX`, `setOffsetX`,
`updateViewportSize`, `centerOnWorldX`) clamps the offset into
`[0, max(0, worldWidth - viewportWidth)]`, hence into
`[0, worldWidth - viewportWidth]` whenever the world is at least as wide
as the viewport; with world width 2148 and viewport width 1200,
`setOffsetX(-50)` yields offset 0 and `setOffsetX(2000)` yields
offset 948. -/
theorem C7_camera_clamp :
    (∀ (c : Camera) (d : ℚ), cameraInv (c.moveX d))
  ∧ (∀ (c : Camera) (x : ℚ), cameraInv (c.setOffsetX x))
  ∧ (∀ (c : Camera) (w h : ℚ), cameraInv (c.updateViewportSize w h))
  ∧ (∀ (c : Camera) (x : ℚ), cameraInv (c.centerOnWorldX x))
  ∧ (∀ c : Camera, cameraInv c → c.viewportWidth ≤ c.worldWidth →
      0 ≤ c.offsetX ∧ c.offsetX ≤ c.worldWidth - c.viewportWidth)
  ∧ (camera2148.setOffsetX (-50)).offsetX = 0
  ∧ (camera2148.setOffsetX 2000).offsetX = 948 := by
  refine ⟨fun c d => clampOffset_inv _, fun c x => clampOffset_inv _,
    fun c w h => clampOffset_inv _, fun c x => clampOffset_inv _,
    fun c hc hvw => ⟨hc.1, ?_⟩, ?_, ?_⟩
  · have := hc.2
    have hmax : max 0 (c.worldWidth - c.viewportWidth) = c.worldWidth - c.viewportWidth :=
      max_eq_right (by linarith)
    rw [hmax] at this
    exact this
  · norm_num [camera2148, Camera.setOffsetX, Camera.clampOffset]
  · norm_num [camera2148, Camera.setOffsetX, Camera.clampOffset]

/-- C7 witness: the conditional clause instantiated at the example
camera. -/
theorem C7_camera_clamp_witness :
    0 ≤ camera2148.offsetX ∧
    camera2148.offsetX ≤ camera2148.worldWidth - camera2148.viewportWidth := by
  refine C7_camera_clamp.2.2.2.2.1 camera2148 ?_ ?_
  · constructor <;> norm_num [camera2148]
  · norm_num [camera2148]

/-! ## C6 -/

/-- C6: `Enemy.updateFromServer` resets the local frame index and frame
timer to 0 exactly when the requested animation-state label differs from
the current one, leaves them untouched otherwise, and always overwrites
the authoritative fields (position, health, death flag). -/
theorem C6_animation_reset (e : Enemy) (d : EnemyStateData) :
    (e.animationState ≠ d.animationState →
      (e.updateFromServer d).localCurrentFrame = 0 ∧
      (e.updateFromServer d).frameTimer = 0)
  ∧ (e.animationState = d.animationState →
      (e.updateFromServer d).localCurrentFrame = e.localCurrentFrame ∧
      (e.updateFromServer d).frameTimer = e.frameTimer)
  ∧ (e.updateFromServer d).animationState = d.animationState
  ∧ (e.updateFromServer d).worldX = d.worldX
  ∧ (e.updateFromServer d).worldY = d.worldY
  ∧ (e.updateFromServer d).currentHP = d.currentHP
  ∧ (e.updateFromServer d).maxHP = d.maxHP
  ∧ (e.updateFromServer d).isDead = d.isDead := by
  by_cases h : e.animationState = d.animationState <;>
    simp [Enemy.updateFromServer, h]

/-- C6 witness: a walk-state enemy at local frame 5 receiving a hurt
update ends at local frame 0 with frame timer 0. -/
theorem C6_animation_reset_witness :
    (walkEnemy.updateFromServer hurtData).localCurrentFrame = 0 ∧
    (walkEnemy.updateFromServer hurtData).frameTimer = 0 :=
  (C6_animation_reset walkEnemy hurtData).1 (by decide)

/-! ## C10 -/

/-- C10: processing a game-state snapshot (`updateGameState`, with its
enemy reconciliation and effect spawning) leaves the camera — in
particular its scroll offset — and the edge-scroll hold timer
untouched. -/
theorem C10_snapshot_preserves_camera (innerWidth innerHeight : ℚ)
    (a : App) (state : GameStateData) :
    (a.processGameState innerWidth innerHeight state).camera = a.camera
  ∧ (a.processGameState innerWidth innerHeight state).camera.offsetX
      = a.camera.offsetX
  ∧ (a.processGameState innerWidth innerHeight state).edgeHoldStartTime
      = a.edgeHoldStartTime :=
  ⟨rfl, rfl, rfl⟩

/-! ## C8 -/

/-- Closed form of the smoothing iteration: the target and factor are
fixed points and the remaining gap to the target shrinks geometrically. -/
lemma gazeIterate_closed_form (c : GazeCursor) (n : ℕ) :
    ((GazeCursor.update)^[n] c).targetX = c.targetX
  ∧ ((GazeCursor.update)^[n] c).chaseSpeed = c.chaseSpeed
  ∧ ((GazeCursor.update)^[n] c).currentX
      = c.targetX - (1 - c.chaseSpeed) ^ n * (c.targetX - c.currentX) := by
  induction n with
  | zero => simp
  | succ n ih =>
    obtain ⟨h1, h2, h3⟩ := ih
    rw [Function.iterate_succ_apply']
    refine ⟨h1, h2, ?_⟩
    show ((GazeCursor.update)^[n] c).currentX +
        (((GazeCursor.update)^[n] c).targetX - ((GazeCursor.update)^[n] c).currentX) *
          ((GazeCursor.update)^[n] c).chaseSpeed = _
    rw [h1, h2, h3]
    ring

/-- C8: one smoothing step moves the displayed position toward the
target on each axis without overshooting it whenever the factor lies in
(0, 1]; with factor 0.08 and target x = 100 from display x = 0, after 50
steps the displayed x is within 2% of 100 and never exceeds 100 at any
step. -/
theorem C8_smoothing :
    (∀ c : GazeCursor, 0 < c.chaseSpeed → c.chaseSpeed ≤ 1 →
      (c.currentX ≤ c.targetX →
        c.currentX ≤ c.update.currentX ∧ c.update.currentX ≤ c.targetX)
    ∧ (c.targetX ≤ c.currentX →
        c.update.currentX ≤ c.currentX ∧ c.targetX ≤ c.update.currentX)
    ∧ (c.currentY ≤ c.targetY →
        c.currentY ≤ c.update.currentY ∧ c.update.currentY ≤ c.targetY)
    ∧ (c.targetY ≤ c.currentY →
        c.update.currentY ≤ c.currentY ∧ c.targetY ≤ c.update.currentY))
  ∧ 98 ≤ ((GazeCursor.update)^[50] gazeDemo).currentX
  ∧ (∀ n : ℕ, ((GazeCursor.update)^[n] gazeDemo).currentX ≤ 100) := by
  refine ⟨?_, ?_, ?_⟩
  · intro c h0 h1
    refine ⟨fun hx => ⟨?_, ?_⟩, fun hx => ⟨?_, ?_⟩,
      fun hy => ⟨?_, ?_⟩, fun hy => ⟨?_, ?_⟩⟩ <;>
      simp only [GazeCursor.update] <;> nlinarith
  · have h := (gazeIterate_closed_form gazeDemo 50).2.2
    rw [h]
    norm_num [gazeDemo]
  · intro n
    have h := (gazeIterate_closed_form gazeDemo n).2.2
    rw [h]
    have hpow : (0:ℚ) ≤ (1 - gazeDemo.chaseSpeed) ^ n * (gazeDemo.targetX - gazeDemo.currentX) := by
      apply mul_nonneg
      · apply pow_nonneg
        norm_num [gazeDemo]
      · norm_num [gazeDemo]
    have ht : gazeDemo.targetX = 100 := rfl
    rw [ht] at hpow ⊢
    linarith

/-- C8 witness: the per-step clause instantiated at the example cursor. -/
theorem C8_smoothing_witness :
    gazeDemo.currentX ≤ gazeDemo.update.currentX ∧
    gazeDemo.update.currentX ≤ gazeDemo.targetX := by
  refine (C8_smoothing.1 gazeDemo ?_ ?_).1 ?_ <;> norm_num [gazeDemo]

/-! ## C2 -/

/-- Incrementing a number stays in the same residue class. -/
lemma succ_mod_char (k c : ℕ) (hc : 0 < c) :
    (k + 1) % c = if c ≤ k % c + 1 then 0 else k % c + 1 := by
  have hlt : k % c < c := Nat.mod_lt k hc
  by_cases h : c ≤ k % c + 1
  · have hceq : k % c + 1 = c := by omega
    rw [if_pos h, ← Nat.mod_add_mod, hceq, Nat.mod_self]
  · have hlt2 : k % c + 1 < c := by omega
    rw [if_neg h, ← Nat.mod_add_mod, Nat.mod_eq_of_lt hlt2]

/-- One `Effect.update` call advances the frame index by at most one. -/
lemma effect_update_frame_le (e : Effect) (dt : ℚ) :
    (e.update dt).currentFrame ≤ e.currentFrame + 1 := by
  simp only [Effect.update]
  split_ifs <;> simp_all <;> omega

/-- One `Enemy.updateAnimation` call advances the local frame index by at
most one. -/
lemma enemy_update_frame_le (e : Enemy) (dt : ℚ) :
    (e.updateAnimation dt).localCurrentFrame ≤ e.localCurrentFrame + 1 := by
  simp only [Enemy.updateAnimation]
  split_ifs <;> simp_all <;> omega

/-- Invariant of iterating `Effect.update` with `dt = frameDuration` on a
fresh looping effect: the clock returns to 0 each call and the frame
index counts up modulo the frame count. -/
lemma effect_loop_iterate (e : Effect) (hl : e.loop = true)
    (hf : e.isFinished = false) (he : e.elapsedTime = 0)
    (h0 : e.currentFrame = 0) (hc : 0 < e.frameCount) : ∀ k : ℕ,
    ((fun x => Effect.update x e.frameDuration)^[k] e).currentFrame
        = k % e.frameCount
  ∧ ((fun x => Effect.update x e.frameDuration)^[k] e).loop = true
  ∧ ((fun x => Effect.update x e.frameDuration)^[k] e).isFinished = false
  ∧ ((fun x => Effect.update x e.frameDuration)^[k] e).elapsedTime = 0
  ∧ ((fun x => Effect.update x e.frameDuration)^[k] e).frameDuration
        = e.frameDuration
  ∧ ((fun x => Effect.update x e.frameDuration)^[k] e).frameCount
        = e.frameCount := by
  intro k
  induction k with
  | zero =>
    simpa using ⟨h0, hl, hf, he⟩
  | succ k ih =>
    obtain ⟨hcf, hlp, hfin, hel, hfd, hfc⟩ := ih
    rw [Function.iterate_succ_apply']
    set y := (fun x => Effect.update x e.frameDuration)^[k] e with hy
    simp only [Effect.update, hfin, Bool.false_eq_true, if_false]
    rw [hel, hfd, hfc, hcf, hlp]
    have hcond : e.frameDuration ≤ 0 + e.frameDuration := by simp
    rw [if_pos hcond]
    by_cases hov : e.frameCount ≤ k % e.frameCount + 1
    · simp [hov, succ_mod_char k e.frameCount hc, hel, hfd, hfc, hlp, hfin]
    · simp [hov, succ_mod_char k e.frameCount hc, hel, hfd, hfc, hlp, hfin]

/-- Invariant of iterating `Enemy.updateAnimation` with
`dt = frameDuration` on a fresh walking enemy. -/
lemma enemy_walk_iterate (e : Enemy) (hw : e.animationState = .walk)
    (ht : e.frameTimer = 0) (h0 : e.localCurrentFrame = 0)
    (hc : 0 < e.typeConfig.sprites.walk.frameCount) : ∀ k : ℕ,
    ((fun x => Enemy.updateAnimation x e.typeConfig.sprites.walk.frameDuration)^[k] e).localCurrentFrame
        = k % e.typeConfig.sprites.walk.frameCount
  ∧ ((fun x => Enemy.updateAnimation x e.typeConfig.sprites.walk.frameDuration)^[k] e).animationState
        = .walk
  ∧ ((fun x => Enemy.updateAnimation x e.typeConfig.sprites.walk.frameDuration)^[k] e).frameTimer
        = 0
  ∧ ((fun x => Enemy.updateAnimation x e.typeConfig.sprites.walk.frameDuration)^[k] e).typeConfig
        = e.typeConfig := by
  intro k
  induction k with
  | zero =>
    simpa using ⟨h0, hw, ht⟩
  | succ k ih =>
    obtain ⟨hcf, hst, htm, hcfg⟩ := ih
    rw [Function.iterate_succ_apply']
    set y := (fun x => Enemy.updateAnimation x e.typeConfig.sprites.walk.frameDuration)^[k] e with hy
    simp only [Enemy.updateAnimation, hst, hcfg, EnemySprites.get]
    rw [htm, hcf]
    have hne : ¬ (AnimationState.walk = AnimationState.death ∧
        e.typeConfig.sprites.walk.frameCount - 1 ≤ k % e.typeConfig.sprites.walk.frameCount) := by
      rintro ⟨hbad, -⟩
      exact absurd hbad (by decide)
    rw [if_neg hne]
    have hcond : e.typeConfig.sprites.walk.frameDuration ≤
        0 + e.typeConfig.sprites.walk.frameDuration := by simp
    rw [if_pos hcond]
    have hwd : ¬ (AnimationState.walk = AnimationState.death) := by decide
    by_cases hov : e.typeConfig.sprites.walk.frameCount ≤
        k % e.typeConfig.sprites.walk.frameCount + 1
    · simp [EnemySprites.get, hwd, hov,
        succ_mod_char k e.typeConfig.sprites.walk.frameCount hc]
    · simp [EnemySprites.get, hwd, hov,
        succ_mod_char k e.typeConfig.sprites.walk.frameCount hc]

/-- C2 counterexample: a fresh looping effect with frameCount 5 and
frameDuration 100 given a single `update(1200)` call (12 whole frame
durations) ends at frame index 1 with 1100 ms left in the accumulator —
not at frame index 12 mod 5 = 2 as the claim's while-loop semantics
demands. -/
theorem C2_counterexample :
    (loopFx.update 1200).currentFrame = 1
  ∧ (loopFx.update 1200).elapsedTime = 1100
  ∧ ¬ (loopFx.update 1200).currentFrame = 12 % 5 := by
  norm_num [Effect.update, loopFx]

/-- C2 (amended): a single call to the advance operation accumulates
`dt` and then advances the frame index by at most one (a single `if`,
not a `while`); it is repeated calls that step through frames, and `k`
successive calls each of exactly one frame duration land a fresh looping
animation on frame `k mod frameCount` — for an effect and for an enemy's
walk animation alike. -/
theorem C2_single_step_advance :
    (∀ (e : Effect) (dt : ℚ), (e.update dt).currentFrame ≤ e.currentFrame + 1)
  ∧ (∀ (e : Enemy) (dt : ℚ),
      (e.updateAnimation dt).localCurrentFrame ≤ e.localCurrentFrame + 1)
  ∧ (∀ e : Effect, e.loop = true → e.isFinished = false → e.elapsedTime = 0 →
      e.currentFrame = 0 → 0 < e.frameCount → ∀ k : ℕ,
      ((fun x => Effect.update x e.frameDuration)^[k] e).currentFrame
        = k % e.frameCount)
  ∧ (∀ e : Enemy, e.animationState = .walk → e.frameTimer = 0 →
      e.localCurrentFrame = 0 → 0 < e.typeConfig.sprites.walk.frameCount →
      ∀ k : ℕ,
      ((fun x => Enemy.updateAnimation x e.typeConfig.sprites.walk.frameDuration)^[k] e).localCurrentFrame
        = k % e.typeConfig.sprites.walk.frameCount) :=
  ⟨effect_update_frame_le, enemy_update_frame_le,
    fun e hl hf he h0 hc k => (effect_loop_iterate e hl hf he h0 hc k).1,
    fun e hw ht h0 hc k => (enemy_walk_iterate e hw ht h0 hc k).1⟩

/-- C2 witness: 12 calls of one frame duration each on the fresh looping
five-frame effect land on frame 12 mod 5 = 2. -/
theorem C2_single_step_advance_witness :
    ((fun x => Effect.update x loopFx.frameDuration)^[12] loopFx).currentFrame = 2 := by
  have h := C2_single_step_advance.2.2.1 loopFx rfl rfl rfl rfl (by norm_num [loopFx]) 12
  simpa [loopFx] using h

/-! ## C3 -/

/-- C3 counterexample: a game tick of 100 ms completes the active
single-frame effect "fx_1" (its update sets the terminal flag), yet the
tick's draw list is empty — the sweep in `updateAnimations` removed the
effect before `render()` ran, so it is not drawn one final time. -/
theorem C3_counterexample :
    (oneShotFx.update 100).isFinished = true
  ∧ (oneShotGame.updateAnimations 100).activeEffects = []
  ∧ Game.tickDrawnEffects oneShotGame 100 = [] := by
  refine ⟨?_, ?_, ?_⟩ <;>
    norm_num [Effect.update, oneShotFx, oneShotGame, Game.updateAnimations,
      Game.tickDrawnEffects, Game.drawnEffects, Effect.isComplete]

/-- C3 (amended): within one render tick the sweep of completed effects
runs during `updateAnimations`, i.e. before the drawing phase; hence no
effect that is finished after the tick's animation advance survives to
the draw phase, and every effect drawn in a tick is unfinished — an
effect whose non-looping animation completes during a tick is removed
without being drawn again that tick. -/
theorem C3_sweep_before_draw (g : Game) (deltaTime : ℚ) :
    ((g.updateAnimations deltaTime).activeEffects.all
        (fun a => ! a.fx.isFinished)) = true
  ∧ ((g.tickDrawnEffects deltaTime).all (fun a => ! a.fx.isFinished)) = true := by
  have h1 : ∀ a ∈ (g.updateAnimations deltaTime).activeEffects,
      a.fx.isFinished = false := by
    intro a ha
    simp only [Game.updateAnimations, List.mem_filter, Effect.isComplete,
      decide_eq_true_eq] at ha
    simpa using ha.2
  constructor
  · rw [List.all_eq_true]
    intro a ha
    simp [h1 a ha]
  · rw [List.all_eq_true]
    intro a ha
    simp only [Game.tickDrawnEffects, Game.drawnEffects] at ha
    simp [h1 a (List.mem_of_mem_filter ha)]

/-! ## C1 -/

/-- One `spawnEffect` step either leaves the active list unchanged or
appends exactly one effect tagged with the entry's id, and only when that
id is not among the pre-computed existing ids. -/
lemma spawnEffect_cases (al : AssetLoader) (iw ih : ℚ) (existing : List String)
    (effs : List ActiveEffect) (d : EffectStateData) :
    spawnEffect al iw ih existing effs d = effs ∨
    (∃ x : ActiveEffect, x.id = d.id ∧ ¬ d.id ∈ existing ∧
      spawnEffect al iw ih existing effs d = effs ++ [x]) := by
  unfold spawnEffect
  by_cases hmem : d.id ∈ existing
  · left
    rw [if_pos (by simpa using hmem)]
  · rw [if_neg (by simpa using hmem)]
    cases hvm : al.getVFXWithMetadata d.type with
    | none => left; rfl
    | some vm =>
      right
      exact ⟨_, rfl, hmem, rfl⟩

/-- The spawning fold only appends, and every appended effect carries an
id that was not among the pre-computed existing ids. -/
lemma fold_spawn_split (al : AssetLoader) (iw ih : ℚ) (existing : List String) :
    ∀ (snap : List EffectStateData) (acc : List ActiveEffect),
    ∃ rest : List ActiveEffect,
      snap.foldl (spawnEffect al iw ih existing) acc = acc ++ rest ∧
      ∀ x ∈ rest, ¬ x.id ∈ existing := by
  intro snap
  induction snap with
  | nil => exact fun acc => ⟨[], by simp⟩
  | cons d tl ih2 =>
    intro acc
    rcases spawnEffect_cases al iw ih existing acc d with hcase | ⟨x, hxid, hxmem, hcase⟩
    · obtain ⟨rest, h1, h2⟩ := ih2 (spawnEffect al iw ih existing acc d)
      exact ⟨rest, by simpa [List.foldl_cons, hcase] using h1, h2⟩
    · obtain ⟨rest, h1, h2⟩ := ih2 (spawnEffect al iw ih existing acc d)
      refine ⟨x :: rest, ?_, ?_⟩
      · rw [List.foldl_cons, h1, hcase, List.append_assoc]
        rfl
      · intro z hz
        rcases List.mem_cons.mp hz with hz | hz
        · rw [hz, hxid]; exact hxmem
        · exact h2 z hz

/-- Monotonicity: an id already present among the active effects is still
present after the spawning fold. -/
lemma fold_spawn_mem_mono (al : AssetLoader) (iw ih : ℚ) (existing : List String)
    (snap : List EffectStateData) (acc : List ActiveEffect) (i : String)
    (hi : i ∈ acc.map ActiveEffect.id) :
    i ∈ (snap.foldl (spawnEffect al iw ih existing) acc).map ActiveEffect.id := by
  obtain ⟨rest, h1, -⟩ := fold_spawn_split al iw ih existing snap acc
  rw [h1, List.map_append]
  exact List.mem_append_left _ hi

/-- If some snapshot entry carries id `i` with a known VFX type and `i`
is not among the pre-computed existing ids, the spawning fold produces an
active effect with id `i`. -/
lemma fold_spawn_creates (al : AssetLoader) (iw ih : ℚ) (existing : List String) :
    ∀ (snap : List EffectStateData) (acc : List ActiveEffect) (i : String),
    ¬ i ∈ existing →
    (∃ d ∈ snap, d.id = i ∧ (al.getVFXWithMetadata d.type).isSome) →
    i ∈ (snap.foldl (spawnEffect al iw ih existing) acc).map ActiveEffect.id := by
  intro snap
  induction snap with
  | nil => rintro acc i - ⟨d, hd, -⟩; simp at hd
  | cons d tl ih2 =>
    rintro acc i hi ⟨d', hd', hid, hsome⟩
    rcases List.mem_cons.mp hd' with hd' | hd'
    · subst hd'
      obtain ⟨vm, hvm⟩ := Option.isSome_iff_exists.mp hsome
      rw [List.foldl_cons]
      apply fold_spawn_mem_mono
      have hstep : spawnEffect al iw ih existing acc d' =
          acc ++ [{ id := d'.id
                    fx := Effect.new (d'.x * iw) (ih * (6/10)) vm.1 vm.2 }] := by
        unfold spawnEffect
        rw [if_neg (by simpa using hid ▸ hi), hvm]
      rw [hstep, List.map_append]
      apply List.mem_append_right
      simp [hid]
    · exact ih2 _ i hi ⟨d', hd', hid, hsome⟩

/-- C1 counterexample: running the snapshot `{effects: [fx_1]}`, then a
100 ms tick (which completes and sweeps the one-frame effect), then the
same snapshot again, creates a second, fresh instance for the id "fx_1":
the id is revived with a zeroed animation clock. -/
theorem C1_counterexample :
    ((emptyGame.updateGameState 1000 1000 fxSnap).activeEffects.map
        ActiveEffect.id = ["fx_1"])
  ∧ (((emptyGame.updateGameState 1000 1000 fxSnap).tick 100).activeEffects = [])
  ∧ ((((emptyGame.updateGameState 1000 1000 fxSnap).tick 100).updateGameState
        1000 1000 fxSnap).activeEffects.map ActiveEffect.id = ["fx_1"])
  ∧ ((((emptyGame.updateGameState 1000 1000 fxSnap).tick 100).updateGameState
        1000 1000 fxSnap).activeEffects.map (fun a => a.fx.currentFrame) = [0]) := by
  refine ⟨?_, ?_, ?_, ?_⟩ <;>
    norm_num [Game.updateGameState, Game.tick, Game.updateAnimations,
      updateEffects, updateEnemies, existingEffectIds, spawnEffect,
      AssetLoader.getVFXWithMetadata, demoLoader, boomMeta, fxSnap, emptyGame,
      Effect.update, Effect.new, Effect.isComplete, List.lookup]

/-- C1 (amended): while an effect id stays in the active set, snapshots
mentioning it are no-ops — the effects carrying that id are exactly the
ones already active — and a snapshot entry whose id is not active (and
whose type is known) creates an instance; at-most-once creation therefore
holds only across the lifetime of one active instance, not across the
whole session. -/
theorem C1_at_most_once_while_active (al : AssetLoader) (iw ih : ℚ)
    (effs : List ActiveEffect) (snap : List EffectStateData) (i : String) :
    (i ≠ "" → i ∈ effs.map ActiveEffect.id →
      (updateEffects al iw ih effs snap).filter (fun a => a.id = i)
        = effs.filter (fun a => a.id = i))
  ∧ (¬ i ∈ existingEffectIds effs →
      (∃ d ∈ snap, d.id = i ∧ (al.getVFXWithMetadata d.type).isSome) →
      i ∈ (updateEffects al iw ih effs snap).map ActiveEffect.id) := by
  constructor
  · intro hne hmem
    have hex : i ∈ existingEffectIds effs := by
      unfold existingEffectIds
      rw [List.mem_filter]
      exact ⟨hmem, by simpa using hne⟩
    obtain ⟨rest, h1, h2⟩ :=
      fold_spawn_split al iw ih (existingEffectIds effs) snap effs
    unfold updateEffects
    rw [h1, List.filter_append]
    have hrest : rest.filter (fun a => a.id = i) = [] := by
      rw [List.filter_eq_nil_iff]
      intro x hx
      have : x.id ≠ i := fun h => (h2 x hx) (h ▸ hex)
      simpa using this
    rw [hrest, List.append_nil]
  · intro hi hex
    unfold updateEffects
    exact fold_spawn_creates al iw ih (existingEffectIds effs) snap effs i hi hex

/-- C1 witness: with the one-frame effect "fx_1" still active, the
snapshot mentioning "fx_1" again leaves the actives carrying that id
unchanged (exactly one instance). -/
theorem C1_at_most_once_while_active_witness :
    (updateEffects demoLoader 1000 1000 [{ id := "fx_1", fx := oneShotFx }]
        fxSnap.effects).filter (fun a => a.id = "fx_1")
      = ([{ id := "fx_1", fx := oneShotFx }] : List ActiveEffect).filter
          (fun a => a.id = "fx_1") := by
  refine (C1_at_most_once_while_active demoLoader 1000 1000
    [{ id := "fx_1", fx := oneShotFx }] fxSnap.effects "fx_1").1 ?_ ?_
  · decide
  · simp

/-! ## C4 -/

/-- Replacing the entries matching one key does not change the key
list. -/
lemma keys_map_replace (es : List (String × Enemy)) (i : String) (v : Enemy) :
    (es.map (fun p => if p.1 = i then (i, v) else p)).map Prod.fst
      = es.map Prod.fst := by
  induction es with
  | nil => rfl
  | cons p t iht =>
    by_cases hp : p.1 = i <;> simp [hp, iht]

/-- Key membership after `mapSet`. -/
lemma mem_enemyKeys_mapSet (es : List (String × Enemy)) (i j : String) (v : Enemy) :
    j ∈ enemyKeys (mapSet es i v) ↔ j ∈ enemyKeys es ∨ j = i := by
  unfold mapSet enemyKeys
  by_cases h : es.any (fun p => p.1 = i)
  · rw [if_pos h, keys_map_replace]
    obtain ⟨p, hp, hpi⟩ := List.any_eq_true.mp h
    have hik : i ∈ es.map Prod.fst :=
      List.mem_map.mpr ⟨p, hp, by simpa using hpi⟩
    constructor
    · exact Or.inl
    · rintro (hj | rfl)
      · exact hj
      · exact hik
  · rw [if_neg h]
    simp

/-- `mapGet` misses exactly the keys absent from the map. -/
lemma mapGet_eq_none_iff (es : List (String × Enemy)) (i : String) :
    mapGet es i = none ↔ ¬ i ∈ enemyKeys es := by
  induction es with
  | nil => simp [mapGet, enemyKeys]
  | cons p t iht =>
    unfold mapGet enemyKeys at *
    by_cases h : i = p.1
    · simp [List.lookup, h]
    · have hb : (i == p.1) = false := by simpa using h
      simp [List.lookup, hb, iht, h]

/-- `mapGet` hits exactly the keys present in the map. -/
lemma mapGet_isSome_iff (es : List (String × Enemy)) (i : String) :
    (mapGet es i).isSome = true ↔ i ∈ enemyKeys es := by
  constructor
  · intro h
    by_contra hmem
    rw [← mapGet_eq_none_iff] at hmem
    rw [hmem] at h
    simp at h
  · intro h
    cases hg : mapGet es i with
    | none => exact absurd h ((mapGet_eq_none_iff es i).mp hg)
    | some v => rfl

/-- Key membership after one reconciliation step. -/
lemma mem_keys_applyEnemyState (es : List (String × Enemy)) (d : EnemyStateData)
    (j : String) :
    j ∈ enemyKeys (applyEnemyState es d) ↔
      j ∈ enemyKeys es ∨
        (j = d.id ∧ ((mapGet es d.id).isSome ∨ (getEnemyConfig d.typeId).isSome)) := by
  unfold applyEnemyState
  cases hg : mapGet es d.id with
  | some e =>
    rw [mem_enemyKeys_mapSet]
    simp [hg]
  | none =>
    cases hc : getEnemyConfig d.typeId with
    | none => simp [hg, hc]
    | some cfg =>
      rw [mem_enemyKeys_mapSet]
      simp [hg, hc]

/-- Key membership after the whole create-or-update fold: the keys grow
by exactly the snapshot ids whose type resolves. -/
lemma mem_keys_fold (snap : List EnemyStateData) :
    ∀ (acc : List (String × Enemy)) (j : String),
    j ∈ enemyKeys (snap.foldl applyEnemyState acc) ↔
      (j ∈ enemyKeys acc ∨
        ∃ d ∈ snap, d.id = j ∧ (getEnemyConfig d.typeId).isSome) := by
  induction snap with
  | nil => simp
  | cons d tl iht =>
    intro acc j
    rw [List.foldl_cons, iht, mem_keys_applyEnemyState]
    constructor
    · rintro ((hj | ⟨rfl, (hs | hs)⟩) | ⟨d', hd', hj, hk⟩)
      · exact Or.inl hj
      · exact Or.inl ((mapGet_isSome_iff acc d.id).mp hs)
      · exact Or.inr ⟨d, List.mem_cons_self d tl, rfl, hs⟩
      · exact Or.inr ⟨d', List.mem_cons_of_mem d hd', hj, hk⟩
    · rintro (hj | ⟨d', hd', hj, hk⟩)
      · exact Or.inl (Or.inl hj)
      · rcases List.mem_cons.mp hd' with rfl | hd'
        · exact Or.inl (Or.inr ⟨hj.symm, Or.inr hk⟩)
        · exact Or.inr ⟨d', hd', hj, hk⟩

/-- Key membership in the deletion pass. -/
lemma mem_keys_removeAbsent (es : List (String × Enemy)) (ids : List String)
    (i : String) :
    i ∈ enemyKeys (es.filter (fun p => ids.contains p.1)) ↔
      (i ∈ enemyKeys es ∧ i ∈ ids) := by
  unfold enemyKeys
  constructor
  · intro h
    obtain ⟨p, hp, hpi⟩ := List.mem_map.mp h
    rw [List.mem_filter] at hp
    refine ⟨List.mem_map.mpr ⟨p, hp.1, hpi⟩, ?_⟩
    have := hp.2
    rw [hpi] at this
    simpa using this
  · rintro ⟨h1, h2⟩
    obtain ⟨p, hp, hpi⟩ := List.mem_map.mp h1
    refine List.mem_map.mpr ⟨p, List.mem_filter.mpr ⟨hp, ?_⟩, hpi⟩
    rw [hpi]
    simpa using h2

/-- C4 counterexample: a local shadow for id "A" together with a snapshot
whose only entry for "A" carries an unresolvable `typeId` — the shadow
survives reconciliation (the type lookup happens only at creation), so the
resulting id set is {A}, not the claimed set of snapshot ids with known
static metadata (which is empty). -/
theorem C4_counterexample :
    enemyKeys (updateEnemies [("A", enemyA)] [bogusEntry]) = ["A"]
  ∧ getEnemyConfig bogusEntry.typeId = none := by
  constructor
  · norm_num [updateEnemies, applyEnemyState, mapGet, mapSet, enemyKeys,
      bogusEntry, List.lookup, Enemy.updateFromServer, enemyA, Enemy.new]
  · decide

/-- C4 (amended): after one reconciliation pass the local shadow ids are
exactly the snapshot ids that either already had a local shadow or whose
`typeId` resolves to known static metadata: absences are deleted, unknown
types are skipped without aborting the pass, but an existing shadow whose
snapshot entry has an unknown type is kept (the type lookup happens only
at creation). -/
theorem C4_reconcile_id_set (es : List (String × Enemy))
    (snap : List EnemyStateData) (i : String) :
    i ∈ enemyKeys (updateEnemies es snap) ↔
      ((i ∈ enemyKeys es ∧ i ∈ snap.map EnemyStateData.id) ∨
        ∃ d ∈ snap, d.id = i ∧ (getEnemyConfig d.typeId).isSome) := by
  unfold updateEnemies
  rw [mem_keys_fold, mem_keys_removeAbsent]

/-- C4 witness: reconciling {A, B, C} against the snapshot {A, C} keeps
A and C and deletes B. -/
theorem C4_reconcile_id_set_witness :
    "A" ∈ enemyKeys (updateEnemies esABC snapAC)
  ∧ ¬ "B" ∈ enemyKeys (updateEnemies esABC snapAC)
  ∧ "C" ∈ enemyKeys (updateEnemies esABC snapAC) := by
  refine ⟨?_, ?_, ?_⟩
  · exact (C4_reconcile_id_set esABC snapAC "A").mpr
      (Or.inl ⟨by simp [esABC, enemyKeys], by simp [snapAC]⟩)
  · intro h
    rcases (C4_reconcile_id_set esABC snapAC "B").mp h with ⟨-, hb⟩ | ⟨d, hd, hj, -⟩
    · simp [snapAC] at hb
    · simp only [snapAC, List.mem_cons, List.not_mem_nil, or_false] at hd
      rcases hd with rfl | rfl <;> simp at hj
  · exact (C4_reconcile_id_set esABC snapAC "C").mpr
      (Or.inl ⟨by simp [esABC, enemyKeys], by simp [snapAC]⟩)

/-! ## C5 -/

/-- Looking up a key that is found in no prefix continues in the
suffix. -/
lemma lookup_append_of_none (es l : List (String × Enemy)) (i : String)
    (h : List.lookup i es = none) :
    List.lookup i (es ++ l) = List.lookup i l := by
  induction es with
  | nil => rfl
  | cons p t iht =>
    cases hb : (i == p.1) with
    | true => simp [List.lookup, hb] at h
    | false =>
      simp only [List.lookup, hb] at h
      simpa [List.lookup, hb] using iht h

/-- Appending an entry for a different key does not change a lookup. -/
lemma lookup_append_singleton_ne (es : List (String × Enemy)) (i j : String)
    (v : Enemy) (h : j ≠ i) :
    List.lookup j (es ++ [(i, v)]) = List.lookup j es := by
  induction es with
  | nil =>
    have hb : (j == i) = false := by simpa using h
    simp [List.lookup, hb]
  | cons p t iht =>
    obtain ⟨k, w⟩ := p
    cases hb : (j == k) <;> simp [List.lookup, hb, iht]

/-- Looking up the replaced key after an in-place replacement. -/
lemma lookup_map_replace_mem (es : List (String × Enemy)) (i : String) (v : Enemy)
    (h : i ∈ enemyKeys es) :
    List.lookup i (es.map (fun p => if p.1 = i then (i, v) else p)) = some v := by
  induction es with
  | nil => simp [enemyKeys] at h
  | cons p t iht =>
    obtain ⟨k, w⟩ := p
    by_cases hp : k = i
    · subst hp
      rw [List.map_cons, if_pos (show ((k, w).1 = k) from rfl)]
      simp [List.lookup]
    · have hne : (i == k) = false := by
        simp only [beq_eq_false_iff_ne, ne_eq]
        exact fun hh => hp hh.symm
      have hmem : i ∈ enemyKeys t := by
        unfold enemyKeys at h ⊢
        rcases List.mem_cons.mp h with hh | hh
        · exact absurd hh.symm hp
        · exact hh
      rw [List.map_cons, if_neg (show ¬ ((k, w).1 = i) from hp)]
      simp [List.lookup, hne, iht hmem]

/-- Looking up any other key after an in-place replacement. -/
lemma lookup_map_replace_ne (es : List (String × Enemy)) (i j : String) (v : Enemy)
    (h : j ≠ i) :
    List.lookup j (es.map (fun p => if p.1 = i then (i, v) else p))
      = List.lookup j es := by
  induction es with
  | nil => rfl
  | cons p t iht =>
    obtain ⟨k, w⟩ := p
    by_cases hp : k = i
    · subst hp
      rw [List.map_cons, if_pos (show ((k, w).1 = k) from rfl)]
      have hne : (j == k) = false := by simpa using h
      simp [List.lookup, hne, iht]
    · rw [List.map_cons, if_neg (show ¬ ((k, w).1 = i) from hp)]
      cases hb : (j == k) <;> simp [List.lookup, hb, iht]

/-- `mapSet` binds the written key to the written value. -/
lemma mapGet_mapSet_self (es : List (String × Enemy)) (i : String) (v : Enemy) :
    mapGet (mapSet es i v) i = some v := by
  unfold mapGet mapSet
  by_cases hany : es.any (fun p => p.1 = i)
  · rw [if_pos hany]
    apply lookup_map_replace_mem
    obtain ⟨p, hp, hpi⟩ := List.any_eq_true.mp hany
    exact List.mem_map.mpr ⟨p, hp, by simpa using hpi⟩
  · rw [if_neg hany]
    have hnone : List.lookup i es = none := by
      rw [show (List.lookup i es = none) ↔ mapGet es i = none from Iff.rfl,
        mapGet_eq_none_iff]
      intro hmem
      obtain ⟨p, hp, hpi⟩ := List.mem_map.mp hmem
      have hcontra : es.any (fun p => p.1 = i) = true := by
        rw [List.any_eq_true]
        exact ⟨p, hp, by simp [hpi]⟩
      exact absurd hcontra (by simpa using hany)
    rw [lookup_append_of_none _ _ _ hnone]
    simp [List.lookup]

/-- `mapSet` leaves every other key's binding unchanged. -/
lemma mapGet_mapSet_ne (es : List (String × Enemy)) (i j : String) (v : Enemy)
    (h : j ≠ i) :
    mapGet (mapSet es i v) j = mapGet es j := by
  unfold mapGet mapSet
  by_cases hany : es.any (fun p => p.1 = i)
  · rw [if_pos hany]
    exact lookup_map_replace_ne es i j v h
  · rw [if_neg hany]
    exact lookup_append_singleton_ne es i j v h

/-- The binding of the processed entry's own id after one reconciliation
step. -/
lemma applyEnemyState_mapGet_self (es : List (String × Enemy)) (d : EnemyStateData) :
    mapGet (applyEnemyState es d) d.id =
      match mapGet es d.id, getEnemyConfig d.typeId with
      | some e, _ => some (e.updateFromServer d)
      | none, some config => some ((Enemy.new d.id config).updateFromServer d)
      | none, none => none := by
  unfold applyEnemyState
  cases hg : mapGet es d.id with
  | some e => simp [mapGet_mapSet_self]
  | none =>
    cases hc : getEnemyConfig d.typeId with
    | none => simp [hg]
    | some config => simp [mapGet_mapSet_self]

/-- One reconciliation step only touches the processed entry's id. -/
lemma applyEnemyState_mapGet_ne (es : List (String × Enemy)) (d : EnemyStateData)
    (j : String) (h : j ≠ d.id) :
    mapGet (applyEnemyState es d) j = mapGet es j := by
  unfold applyEnemyState
  cases hg : mapGet es d.id with
  | some e => exact mapGet_mapSet_ne es d.id j _ h
  | none =>
    cases hc : getEnemyConfig d.typeId with
    | none => rfl
    | some config => exact mapGet_mapSet_ne es d.id j _ h

/-- The create-or-update fold does not touch ids outside the processed
snapshot. -/
lemma fold_mapGet_not_mem (snap : List EnemyStateData) :
    ∀ (acc : List (String × Enemy)) (j : String),
    ¬ j ∈ snap.map EnemyStateData.id →
    mapGet (snap.foldl applyEnemyState acc) j = mapGet acc j := by
  induction snap with
  | nil => intro acc j _; rfl
  | cons d tl iht =>
    intro acc j hj
    have hj1 : j ≠ d.id := by
      intro hh
      exact hj (by simp [hh])
    have hj2 : ¬ j ∈ tl.map EnemyStateData.id := by
      intro hh
      exact hj (by simp [hh])
    rw [List.foldl_cons, iht _ j hj2, applyEnemyState_mapGet_ne _ _ _ hj1]

/-- `updateFromServer` with the same data is idempotent on the shadow. -/
lemma updateFromServer_idem (e : Enemy) (d : EnemyStateData) :
    (e.updateFromServer d).updateFromServer d = e.updateFromServer d := by
  unfold Enemy.updateFromServer
  by_cases h : e.animationState = d.animationState <;> simp [h]

/-- `mapSet` preserves distinctness of the keys. -/
lemma nodup_keys_mapSet (es : List (String × Enemy)) (i : String) (v : Enemy)
    (h : (enemyKeys es).Nodup) :
    (enemyKeys (mapSet es i v)).Nodup := by
  unfold mapSet
  by_cases hany : es.any (fun p => p.1 = i)
  · rw [if_pos hany]
    unfold enemyKeys at *
    rw [keys_map_replace]
    exact h
  · rw [if_neg hany]
    unfold enemyKeys at *
    rw [List.map_append]
    rw [List.nodup_append]
    refine ⟨h, by simp, ?_⟩
    intro a ha hb
    simp only [List.map_cons, List.map_nil, List.mem_singleton] at hb
    subst hb
    obtain ⟨p, hp, hpi⟩ := List.mem_map.mp ha
    have hcontra : es.any (fun p => p.1 = a) = true := by
      rw [List.any_eq_true]
      exact ⟨p, hp, by simp [hpi]⟩
    exact absurd hcontra (by simpa using hany)

/-- One reconciliation step preserves distinctness of the keys. -/
lemma nodup_keys_applyEnemyState (es : List (String × Enemy)) (d : EnemyStateData)
    (h : (enemyKeys es).Nodup) :
    (enemyKeys (applyEnemyState es d)).Nodup := by
  unfold applyEnemyState
  cases mapGet es d.id with
  | some e => exact nodup_keys_mapSet es d.id _ h
  | none =>
    cases getEnemyConfig d.typeId with
    | none => exact h
    | some config => exact nodup_keys_mapSet es d.id _ h

/-- The create-or-update fold preserves distinctness of the keys. -/
lemma nodup_keys_fold (snap : List EnemyStateData) :
    ∀ acc : List (String × Enemy), (enemyKeys acc).Nodup →
    (enemyKeys (snap.foldl applyEnemyState acc)).Nodup := by
  induction snap with
  | nil => exact fun acc h => h
  | cons d tl iht =>
    intro acc h
    rw [List.foldl_cons]
    exact iht _ (nodup_keys_applyEnemyState acc d h)

/-- Replacing entries by their own current value is the identity. -/
lemma map_replace_not_mem (t : List (String × Enemy)) (i : String) (v : Enemy)
    (h : ¬ i ∈ enemyKeys t) :
    t.map (fun p => if p.1 = i then (i, v) else p) = t := by
  induction t with
  | nil => rfl
  | cons p tl iht =>
    have hp : ¬ p.1 = i := by
      intro hh
      exact h (by simp [enemyKeys, hh])
    have htl : ¬ i ∈ enemyKeys tl := by
      intro hh
      exact h (by simp [enemyKeys] at hh ⊢; exact Or.inr (by simpa [enemyKeys] using hh))
    simp [hp, iht htl]

/-- Replacing the bound entry of a key by its current binding is the
identity (under distinct keys). -/
lemma map_replace_self (i : String) (v : Enemy) :
    ∀ es : List (String × Enemy), (enemyKeys es).Nodup →
    mapGet es i = some v →
    es.map (fun p => if p.1 = i then (i, v) else p) = es := by
  intro es
  induction es with
  | nil => intro _ _; rfl
  | cons p t iht =>
    intro hnd hl
    have hnd' : (enemyKeys t).Nodup ∧ ¬ p.1 ∈ enemyKeys t := by
      have := hnd
      unfold enemyKeys at this ⊢
      rw [List.map_cons, List.nodup_cons] at this
      exact ⟨this.2, this.1⟩
    by_cases hp : p.1 = i
    · have hbeq : (i == p.1) = true := by simpa using hp.symm
      have hv : p.2 = v := by
        unfold mapGet at hl
        simp [List.lookup, hbeq] at hl
        exact hl
      have hnot : ¬ i ∈ enemyKeys t := hp ▸ hnd'.2
      rw [List.map_cons, if_pos hp, map_replace_not_mem t i v hnot]
      obtain ⟨p1, p2⟩ := p
      simp only at hp hv
      rw [hp, hv]
    · have hbeq : (i == p.1) = false := by
        simp only [beq_eq_false_iff_ne, ne_eq]
        exact fun hh => hp hh.symm
      have hl' : mapGet t i = some v := by
        unfold mapGet at hl ⊢
        simpa [List.lookup, hbeq] using hl
      rw [List.map_cons, if_neg hp, iht hnd'.1 hl']

/-- Writing back the value a key already holds is the identity (under
distinct keys). -/
lemma mapSet_self_of_lookup (es : List (String × Enemy)) (i : String) (v : Enemy)
    (hnd : (enemyKeys es).Nodup) (hl : mapGet es i = some v) :
    mapSet es i v = es := by
  unfold mapSet
  have hmem : i ∈ enemyKeys es := by
    rw [← mapGet_isSome_iff, hl]
    rfl
  obtain ⟨p, hp, hpi⟩ := List.mem_map.mp hmem
  rw [if_pos (List.any_eq_true.mpr ⟨p, hp, by simpa using hpi⟩)]
  exact map_replace_self i v es hnd hl

/-- A fold whose every step fixes the accumulator fixes it overall. -/
lemma foldl_fixed {α β : Type} (f : α → β → α) :
    ∀ (l : List β) (acc : α), (∀ d ∈ l, f acc d = acc) → l.foldl f acc = acc := by
  intro l
  induction l with
  | nil => intro acc _; rfl
  | cons d tl iht =>
    intro acc h
    rw [List.foldl_cons, h d (List.mem_cons_self d tl)]
    exact iht acc fun d' hd' => h d' (List.mem_cons_of_mem d hd')

/-- After folding a snapshot split around an entry `d` whose id does not
recur later, the binding of `d.id` is either absent (with `d`'s type
unknown) or the result of `updateFromServer` with `d`. -/
lemma fold_lookup_synced (pre post : List EnemyStateData) (d : EnemyStateData)
    (hpost : ¬ d.id ∈ post.map EnemyStateData.id) (acc : List (String × Enemy)) :
    (∃ e0 : Enemy,
        mapGet ((pre ++ d :: post).foldl applyEnemyState acc) d.id
          = some (e0.updateFromServer d)) ∨
    (mapGet ((pre ++ d :: post).foldl applyEnemyState acc) d.id = none ∧
        getEnemyConfig d.typeId = none) := by
  rw [List.foldl_append, List.foldl_cons, fold_mapGet_not_mem post _ d.id hpost,
    applyEnemyState_mapGet_self]
  cases hg : mapGet (pre.foldl applyEnemyState acc) d.id with
  | some e => exact Or.inl ⟨e, rfl⟩
  | none =>
    cases hc : getEnemyConfig d.typeId with
    | none => exact Or.inr ⟨rfl, rfl⟩
    | some config => exact Or.inl ⟨Enemy.new d.id config, rfl⟩

/-- After a reconciliation pass over a snapshot with pairwise-distinct
ids, the binding of each entry's id is either absent (unknown type) or
the result of `updateFromServer` with that very entry. -/
lemma updateEnemies_lookup_synced (es : List (String × Enemy))
    (snap : List EnemyStateData) (hsnap : (snap.map EnemyStateData.id).Nodup)
    (d : EnemyStateData) (hd : d ∈ snap) :
    (∃ e0 : Enemy,
        mapGet (updateEnemies es snap) d.id = some (e0.updateFromServer d)) ∨
    (mapGet (updateEnemies es snap) d.id = none ∧
        getEnemyConfig d.typeId = none) := by
  obtain ⟨pre, post, rfl⟩ := List.append_of_mem hd
  have hpost : ¬ d.id ∈ post.map EnemyStateData.id := by
    have := hsnap
    rw [List.map_append, List.map_cons, List.nodup_append] at this
    have hcons := this.2.1
    rw [List.nodup_cons] at hcons
    exact hcons.1
  exact fold_lookup_synced pre post d hpost _

/-- C5: reconciliation is idempotent — calling `updateEnemies` a second
time with the identical snapshot leaves the entire local entity map
(entries, values and order) unchanged, provided the map's keys and the
snapshot's ids are each pairwise distinct (a JS `Map` cannot hold
duplicate keys, and a snapshot keys its entities by id). -/
theorem C5_reconcile_idempotent (es : List (String × Enemy))
    (snap : List EnemyStateData) (hes : (enemyKeys es).Nodup)
    (hsnap : (snap.map EnemyStateData.id).Nodup) :
    updateEnemies (updateEnemies es snap) snap = updateEnemies es snap := by
  have hkeys_sub : ∀ j, j ∈ enemyKeys (updateEnemies es snap) →
      j ∈ snap.map EnemyStateData.id := by
    intro j hj
    unfold updateEnemies at hj
    rw [mem_keys_fold, mem_keys_removeAbsent] at hj
    rcases hj with ⟨-, h2⟩ | ⟨d, hd, rfl, -⟩
    · exact h2
    · exact List.mem_map.mpr ⟨d, hd, rfl⟩
  have hnodup_r : (enemyKeys (updateEnemies es snap)).Nodup := by
    unfold updateEnemies
    apply nodup_keys_fold
    unfold enemyKeys
    exact ((List.filter_sublist es).map Prod.fst).nodup hes
  have hstep : ∀ d ∈ snap, applyEnemyState (updateEnemies es snap) d
      = updateEnemies es snap := by
    intro d hd
    rcases updateEnemies_lookup_synced es snap hsnap d hd with
      ⟨e0, hsome⟩ | ⟨hnone, hcfg⟩
    · unfold applyEnemyState
      rw [hsome]
      show mapSet (updateEnemies es snap) d.id
        ((e0.updateFromServer d).updateFromServer d) = updateEnemies es snap
      rw [updateFromServer_idem]
      exact mapSet_self_of_lookup _ _ _ hnodup_r hsome
    · unfold applyEnemyState
      rw [hnone, hcfg]
  have hfilter : (updateEnemies es snap).filter
      (fun p => (snap.map (fun e => e.id)).contains p.1) = updateEnemies es snap := by
    rw [List.filter_eq_self]
    intro p hp
    have : p.1 ∈ snap.map EnemyStateData.id :=
      hkeys_sub p.1 (List.mem_map.mpr ⟨p, hp, rfl⟩)
    simpa using this
  show (snap.map (fun e => e.id) |> fun ids =>
    snap.foldl applyEnemyState
      ((updateEnemies es snap).filter fun p => ids.contains p.1)) = _
  rw [show (snap.map (fun e => e.id) |> fun ids =>
      snap.foldl applyEnemyState
        ((updateEnemies es snap).filter fun p => ids.contains p.1)) =
    snap.foldl applyEnemyState
      ((updateEnemies es snap).filter fun p =>
        (snap.map (fun e => e.id)).contains p.1) from rfl]
  rw [hfilter]
  exact foldl_fixed applyEnemyState snap (updateEnemies es snap) hstep

/-- C5 witness: reconciling the empty local set with the slime snapshot
twice equals reconciling it once. -/
theorem C5_reconcile_idempotent_witness :
    updateEnemies (updateEnemies [] [slimeEntry]) [slimeEntry]
      = updateEnemies [] [slimeEntry] :=
  C5_reconcile_idempotent [] [slimeEntry] (by simp [enemyKeys]) (by simp)

/-! ## C9 -/

/-- An evaluation outside both edge zones only resets the hold timer. -/
lemma checkAndScroll_out_of_zone (s : ScrollState) (now worldX : ℚ)
    (h1 : ¬ isInLeftZone s.camera worldX) (h2 : ¬ isInRightZone s.camera worldX) :
    checkAndScrollCamera s now worldX = { s with edgeHoldStartTime := 0 } := by
  unfold checkAndScrollCamera
  rw [if_neg (by tauto)]

/-- An in-zone evaluation leaves the timer at its start value: the old
timestamp if set, the current time otherwise. -/
lemma checkAndScroll_in_zone_timer (s : ScrollState) (now worldX : ℚ)
    (h : isInLeftZone s.camera worldX ∨ isInRightZone s.camera worldX) :
    (checkAndScrollCamera s now worldX).edgeHoldStartTime =
      (if s.edgeHoldStartTime = 0 then now else s.edgeHoldStartTime) := by
  simp only [checkAndScrollCamera]
  rw [if_pos h]
  split_ifs <;> rfl

/-- A camera movement implies the dwell threshold was met on a
previously-started timer. -/
lemma checkAndScroll_change_dwell (s : ScrollState) (now worldX : ℚ)
    (h : (checkAndScrollCamera s now worldX).camera.offsetX ≠ s.camera.offsetX) :
    (isInLeftZone s.camera worldX ∨ isInRightZone s.camera worldX) ∧
      s.edgeHoldStartTime ≠ 0 ∧
      EDGE_HOLD_THRESHOLD ≤ now - s.edgeHoldStartTime := by
  by_cases hz : isInLeftZone s.camera worldX ∨ isInRightZone s.camera worldX
  · refine ⟨hz, ?_⟩
    simp only [checkAndScrollCamera] at h
    rw [if_pos hz] at h
    by_cases h0 : s.edgeHoldStartTime = 0
    · rw [if_pos h0] at h
      have hno : ¬ (EDGE_HOLD_THRESHOLD ≤ now - now) := by
        norm_num [EDGE_HOLD_THRESHOLD]
      rw [if_neg hno] at h
      exact absurd rfl h
    · rw [if_neg h0] at h
      by_cases hdw : EDGE_HOLD_THRESHOLD ≤ now - s.edgeHoldStartTime
      · exact ⟨h0, hdw⟩
      · rw [if_neg hdw] at h
        exact absurd rfl h
  · rw [checkAndScroll_out_of_zone s now worldX (fun hh => hz (Or.inl hh))
      (fun hh => hz (Or.inr hh))] at h
    exact absurd rfl h

/-- A dwell-satisfied left-zone evaluation with room to scroll moves the
camera left by the computed speed (and keeps the timer). -/
lemma checkAndScroll_left_move (s : ScrollState) (now worldX : ℚ)
    (hl : isInLeftZone s.camera worldX) (h0 : s.edgeHoldStartTime ≠ 0)
    (hdw : EDGE_HOLD_THRESHOLD ≤ now - s.edgeHoldStartTime)
    (hoff : 0 < s.camera.offsetX) :
    checkAndScrollCamera s now worldX =
      { camera := s.camera.moveX
          (-(scrollSpeedOf (leftScrollZone s.camera - worldX) (scrollMargin s.camera)))
        edgeHoldStartTime := s.edgeHoldStartTime } := by
  simp only [checkAndScrollCamera]
  rw [if_pos (Or.inl hl), if_neg h0, if_pos hdw, if_pos hl, if_pos ⟨hl, hoff⟩]

/-- A dwell-satisfied right-zone evaluation with room to scroll moves the
camera right by the computed speed (and keeps the timer). -/
lemma checkAndScroll_right_move (s : ScrollState) (now worldX : ℚ)
    (hr : isInRightZone s.camera worldX) (hnl : ¬ isInLeftZone s.camera worldX)
    (h0 : s.edgeHoldStartTime ≠ 0)
    (hdw : EDGE_HOLD_THRESHOLD ≤ now - s.edgeHoldStartTime)
    (hoff : s.camera.offsetX < SCROLL_WORLD_WIDTH - s.camera.viewportWidth) :
    checkAndScrollCamera s now worldX =
      { camera := s.camera.moveX
          (scrollSpeedOf (worldX - rightScrollZone s.camera) (scrollMargin s.camera))
        edgeHoldStartTime := s.edgeHoldStartTime } := by
  simp only [checkAndScrollCamera]
  rw [if_pos (Or.inr hr), if_neg h0, if_pos hdw, if_neg hnl,
    if_neg (fun hh : isInLeftZone s.camera worldX ∧ 0 < s.camera.offsetX => hnl hh.1),
    if_pos ⟨hr, hoff⟩]

/-- The computed scroll speed on `[0, margin]` is the linear
interpolation between the minimum and maximum speeds. -/
lemma scrollSpeedOf_linear (d m : ℚ) (hm : 0 < m) (hd : d ≤ m) :
    scrollSpeedOf d m =
      MIN_SCROLL_SPEED + (MAX_SCROLL_SPEED - MIN_SCROLL_SPEED) * (d / m) := by
  unfold scrollSpeedOf
  rw [min_eq_left ((div_le_one hm).mpr hd)]

/-- The computed scroll speed is monotone in the depth and stays within
the speed bounds. -/
lemma scrollSpeedOf_mono_bounds (d1 d2 m : ℚ) (hm : 0 < m) (h0 : 0 ≤ d1)
    (h : d1 ≤ d2) :
    scrollSpeedOf d1 m ≤ scrollSpeedOf d2 m ∧
    MIN_SCROLL_SPEED ≤ scrollSpeedOf d1 m ∧
    scrollSpeedOf d1 m ≤ MAX_SCROLL_SPEED := by
  have hdiv : d1 / m ≤ d2 / m := (div_le_div_iff_of_pos_right hm).mpr h
  have hmin1 : min (d1 / m) 1 ≤ min (d2 / m) 1 := min_le_min hdiv le_rfl
  have hmin0 : (0 : ℚ) ≤ min (d1 / m) 1 := le_min (div_nonneg h0 hm.le) zero_le_one
  have hminle : min (d1 / m) 1 ≤ 1 := min_le_right _ _
  unfold scrollSpeedOf MIN_SCROLL_SPEED MAX_SCROLL_SPEED
  refine ⟨?_, ?_, ?_⟩ <;> nlinarith [hmin1, hmin0, hminle]

/-- C9: the gaze-driven scroll controller (i) resets the hold timer — and
does not move the camera — whenever the pointer is outside both edge
zones, (ii) moves the viewport offset only when the timer was already set
and the 300 ms dwell threshold has elapsed, (iii)/(iv) starts the timer on
zone entry and keeps it while inside, (v) applies, once dwelling, a speed
that is monotone in zone depth, bounded by the minimum and maximum
speeds, and equal to the linear interpolation between them over the
margin, in the direction of the zone (left/right move equations). -/
theorem C9_edge_scroll :
    (∀ (s : ScrollState) (now worldX : ℚ),
      ¬ isInLeftZone s.camera worldX → ¬ isInRightZone s.camera worldX →
        (checkAndScrollCamera s now worldX).edgeHoldStartTime = 0 ∧
        (checkAndScrollCamera s now worldX).camera = s.camera)
  ∧ (∀ (s : ScrollState) (now worldX : ℚ),
      (checkAndScrollCamera s now worldX).camera.offsetX ≠ s.camera.offsetX →
        (isInLeftZone s.camera worldX ∨ isInRightZone s.camera worldX) ∧
        s.edgeHoldStartTime ≠ 0 ∧
        EDGE_HOLD_THRESHOLD ≤ now - s.edgeHoldStartTime)
  ∧ (∀ (s : ScrollState) (now worldX : ℚ),
      (isInLeftZone s.camera worldX ∨ isInRightZone s.camera worldX) →
      s.edgeHoldStartTime = 0 →
        (checkAndScrollCamera s now worldX).edgeHoldStartTime = now)
  ∧ (∀ (s : ScrollState) (now worldX : ℚ),
      (isInLeftZone s.camera worldX ∨ isInRightZone s.camera worldX) →
      s.edgeHoldStartTime ≠ 0 →
        (checkAndScrollCamera s now worldX).edgeHoldStartTime
          = s.edgeHoldStartTime)
  ∧ (∀ d1 d2 m : ℚ, 0 < m → 0 ≤ d1 → d1 ≤ d2 →
      scrollSpeedOf d1 m ≤ scrollSpeedOf d2 m ∧
      MIN_SCROLL_SPEED ≤ scrollSpeedOf d1 m ∧
      scrollSpeedOf d1 m ≤ MAX_SCROLL_SPEED)
  ∧ (∀ d m : ℚ, 0 < m → d ≤ m →
      scrollSpeedOf d m =
        MIN_SCROLL_SPEED + (MAX_SCROLL_SPEED - MIN_SCROLL_SPEED) * (d / m))
  ∧ (∀ (s : ScrollState) (now worldX : ℚ),
      isInLeftZone s.camera worldX → s.edgeHoldStartTime ≠ 0 →
      EDGE_HOLD_THRESHOLD ≤ now - s.edgeHoldStartTime →
      0 < s.camera.offsetX →
        checkAndScrollCamera s now worldX =
          { camera := s.camera.moveX
              (-(scrollSpeedOf (leftScrollZone s.camera - worldX)
                  (scrollMargin s.camera)))
            edgeHoldStartTime := s.edgeHoldStartTime })
  ∧ (∀ (s : ScrollState) (now worldX : ℚ),
      isInRightZone s.camera worldX → ¬ isInLeftZone s.camera worldX →
      s.edgeHoldStartTime ≠ 0 →
      EDGE_HOLD_THRESHOLD ≤ now - s.edgeHoldStartTime →
      s.camera.offsetX < SCROLL_WORLD_WIDTH - s.camera.viewportWidth →
        checkAndScrollCamera s now worldX =
          { camera := s.camera.moveX
              (scrollSpeedOf (worldX - rightScrollZone s.camera)
                (scrollMargin s.camera))
            edgeHoldStartTime := s.edgeHoldStartTime }) := by
  refine ⟨?_, ?_, ?_, ?_, ?_, ?_, ?_, ?_⟩
  · intro s now worldX h1 h2
    rw [checkAndScroll_out_of_zone s now worldX h1 h2]
    exact ⟨rfl, rfl⟩
  · exact checkAndScroll_change_dwell
  · intro s now worldX hz h0
    rw [checkAndScroll_in_zone_timer s now worldX hz, if_pos h0]
  · intro s now worldX hz h0
    rw [checkAndScroll_in_zone_timer s now worldX hz, if_neg h0]
  · exact fun d1 d2 m hm h0 h => scrollSpeedOf_mono_bounds d1 d2 m hm h0 h
  · exact fun d m hm hd => scrollSpeedOf_linear d m hm hd
  · exact checkAndScroll_left_move
  · exact checkAndScroll_right_move

/-- C9 witness: at offset 500 with the timer set at t=1000, an evaluation
at t=1500 with the pointer outside both zones resets the timer; with the
pointer 110 deep in the left zone it scrolls the camera left by the
computed speed. -/
theorem C9_edge_scroll_witness :
    (checkAndScrollCamera sHold 1500 1000).edgeHoldStartTime = 0
  ∧ checkAndScrollCamera sHold 1500 510 =
      { camera := cam500.moveX
          (-(scrollSpeedOf (leftScrollZone cam500 - 510) (scrollMargin cam500)))
        edgeHoldStartTime := 1000 } := by
  constructor
  · refine (C9_edge_scroll.1 sHold 1500 1000 ?_ ?_).1 <;>
      norm_num [isInLeftZone, isInRightZone, leftScrollZone, rightScrollZone,
        scrollMargin, sHold, cam500, EDGE_THRESHOLD]
  · refine C9_edge_scroll.2.2.2.2.2.2.1 sHold 1500 510 ?_ ?_ ?_ ?_ <;>
      norm_num [isInLeftZone, leftScrollZone, scrollMargin, sHold, cam500,
        EDGE_THRESHOLD, EDGE_HOLD_THRESHOLD]

end LastVigil
